import Mathlib

/-!
Verification development for the CPU-side geometry and scene kernel of a
GPU ray marcher.  The Rust source is shallowly embedded: `f32` scalars are
modelled as exact rationals (`ℚ`), except for the camera construction where
the tangent function forces the reals; Rust `panic!` / `todo!` are modelled
with `Except String`; Rust `Vec` indexing that may panic is modelled with an
explicit bounds check.  Definitions keep the source names and structure.
-/

set_option maxHeartbeats 2000000

set_option maxRecDepth 16384

/-- Tolerance used by the source's approximate `PartialEq` on vectors
(`(a - b).abs() < 0.000001`). -/
def veps : ℚ := 1 / 1000000

/-- Source `Vec2` from `geom/points/vec2.rs`: two scalar components. -/
@[ext]
structure Vec2 (α : Type) where
  x : α
  y : α
  deriving DecidableEq, Repr

/-- Source `Vec3` from `geom/points/vec3.rs`: three scalar components. -/
@[ext]
structure Vec3 (α : Type) where
  x : α
  y : α
  z : α
  deriving DecidableEq, Repr

/-- Source `Vec4` from `geom/points/vec4.rs`: four scalar components. -/
@[ext]
structure Vec4 (α : Type) where
  x : α
  y : α
  z : α
  w : α
  deriving DecidableEq, Repr

namespace Vec2

variable {α : Type} [Field α] [DecidableEq α]

/-- Source `impl Add for Vec2`. -/
def add (a b : Vec2 α) : Vec2 α := ⟨a.x + b.x, a.y + b.y⟩

/-- Source `impl Sub for Vec2`. -/
def sub (a b : Vec2 α) : Vec2 α := ⟨a.x - b.x, a.y - b.y⟩

/-- Source `impl Mul<f32> for Vec2` (scalar multiplication). -/
def mulScalar (a : Vec2 α) (c : α) : Vec2 α := ⟨a.x * c, a.y * c⟩

/-- Source `impl PartialEq for Vec2`: approximate equality, absolute component
difference strictly below `0.000001`. -/
def veq (a b : Vec2 ℚ) : Prop :=
  |a.x - b.x| < veps ∧ |a.y - b.y| < veps

instance : DecidablePred fun p : Vec2 ℚ × Vec2 ℚ => veq p.1 p.2 := by
  intro p; unfold veq; infer_instance

instance (a b : Vec2 ℚ) : Decidable (veq a b) := by
  unfold veq; infer_instance

end Vec2

namespace Vec3

variable {α : Type} [Field α] [DecidableEq α]

/-- Source `impl Sub for Vec3`: component-wise difference in all three components. -/
def sub (a b : Vec3 α) : Vec3 α := ⟨a.x - b.x, a.y - b.y, a.z - b.z⟩

/-- Source `impl SubAssign for Vec3` as written in the source: only the `x` and `y`
components are updated; the `z` component of the receiver is left unchanged. -/
def subAssign (a b : Vec3 α) : Vec3 α := ⟨a.x - b.x, a.y - b.y, a.z⟩

/-- Source `impl Mul<f32> for Vec3` (scalar multiplication). -/
def mulScalar (a : Vec3 α) (c : α) : Vec3 α := ⟨a.x * c, a.y * c, a.z * c⟩

/-- Source `impl PartialEq for Vec3`: approximate equality, absolute component
difference strictly below `0.000001`. -/
def veq (a b : Vec3 ℚ) : Prop :=
  |a.x - b.x| < veps ∧ |a.y - b.y| < veps ∧ |a.z - b.z| < veps

instance (a b : Vec3 ℚ) : Decidable (veq a b) := by
  unfold veq; infer_instance

end Vec3

namespace Vec4

variable {α : Type} [Field α] [DecidableEq α]

/-- Source `impl Mul<f32> for Vec4` (scalar multiplication). -/
def mulScalar (a : Vec4 α) (c : α) : Vec4 α := ⟨a.x * c, a.y * c, a.z * c, a.w * c⟩

/-- Source `impl PartialEq for Vec4`: approximate equality, absolute component
difference strictly below `0.000001`. -/
def veq (a b : Vec4 ℚ) : Prop :=
  |a.x - b.x| < veps ∧ |a.y - b.y| < veps ∧ |a.z - b.z| < veps ∧ |a.w - b.w| < veps

instance (a b : Vec4 ℚ) : Decidable (veq a b) := by
  unfold veq; infer_instance

end Vec4

/-- Source `Matrix2x2` from `geom/matrix/matrix2x2.rs`: two row vectors. -/
@[ext]
structure Matrix2x2 (α : Type) where
  x : Vec2 α
  y : Vec2 α
  deriving DecidableEq, Repr

namespace Matrix2x2

variable {α : Type} [Field α] [DecidableEq α]

/-- Source `Matrix2x2::identity`. -/
def identity : Matrix2x2 α := ⟨⟨1, 0⟩, ⟨0, 1⟩⟩

/-- Source `Matrix2x2::determinant`: `x.x * y.y - x.y * y.x`. -/
def determinant (m : Matrix2x2 α) : α := m.x.x * m.y.y - m.x.y * m.y.x

/-- The standard 2x2 adjugate.  The source inlines its entries (divided by
the determinant) in `Matrix2x2::inverse`; it is named here so the inverse
can be compared against "adjugate scaled by 1/determinant". -/
def adjugate (m : Matrix2x2 α) : Matrix2x2 α :=
  ⟨⟨m.y.y, -m.x.y⟩, ⟨-m.y.x, m.x.x⟩⟩

/-- Source `Matrix2x2::inverse`: panics with "Matrix is not invertible" when the
determinant is exactly zero, otherwise returns the matrix with entries
`(y.y/det, -x.y/det; -y.x/det, x.x/det)` exactly as in the source. -/
def inverse (m : Matrix2x2 α) : Except String (Matrix2x2 α) :=
  let det := m.determinant
  if det = 0 then
    Except.error "Matrix is not invertible"
  else
    Except.ok ⟨⟨m.y.y / det, -m.x.y / det⟩, ⟨-m.y.x / det, m.x.x / det⟩⟩

/-- Source `impl Mul for Matrix2x2`: row-by-column product, entries written out as
in the source. -/
def mul (a b : Matrix2x2 α) : Matrix2x2 α :=
  ⟨⟨a.x.x * b.x.x + a.x.y * b.y.x,
    a.x.x * b.x.y + a.x.y * b.y.y⟩,
   ⟨a.y.x * b.x.x + a.y.y * b.y.x,
    a.y.x * b.x.y + a.y.y * b.y.y⟩⟩

/-- Source `impl Mul<f32> for Matrix2x2` (scalar multiplication, row-wise). -/
def mulScalar (a : Matrix2x2 α) (c : α) : Matrix2x2 α :=
  ⟨a.x.mulScalar c, a.y.mulScalar c⟩

/-- The derived `PartialEq` on `Matrix2x2` compares rows with `Vec2`'s
approximate equality. -/
def meq (a b : Matrix2x2 ℚ) : Prop := Vec2.veq a.x b.x ∧ Vec2.veq a.y b.y

instance (a b : Matrix2x2 ℚ) : Decidable (meq a b) := by
  unfold meq; infer_instance

end Matrix2x2

/-- Source `Matrix3x3` from `geom/matrix/matrix3x3.rs`: three row vectors. -/
@[ext]
structure Matrix3x3 (α : Type) where
  x : Vec3 α
  y : Vec3 α
  z : Vec3 α
  deriving DecidableEq, Repr

namespace Matrix3x3

variable {α : Type} [Field α] [DecidableEq α]

/-- Source `Matrix3x3::identity`. -/
def identity : Matrix3x3 α := ⟨⟨1, 0, 0⟩, ⟨0, 1, 0⟩, ⟨0, 0, 1⟩⟩

/-- Source `Matrix3x3::sub_matrix(row, col)`: drops the given row and column,
keeping the remaining entries in order.  The source asserts `row < 3` and
`col < 3` and fills the result with two nested loops; here the loop is
unrolled into the nine `(row, col)` cases, and the assertion becomes the
`Fin 3` domain. -/
def subMatrix (m : Matrix3x3 α) (row col : Fin 3) : Matrix2x2 α :=
  match row, col with
  | 0, 0 => ⟨⟨m.y.y, m.y.z⟩, ⟨m.z.y, m.z.z⟩⟩
  | 0, 1 => ⟨⟨m.y.x, m.y.z⟩, ⟨m.z.x, m.z.z⟩⟩
  | 0, 2 => ⟨⟨m.y.x, m.y.y⟩, ⟨m.z.x, m.z.y⟩⟩
  | 1, 0 => ⟨⟨m.x.y, m.x.z⟩, ⟨m.z.y, m.z.z⟩⟩
  | 1, 1 => ⟨⟨m.x.x, m.x.z⟩, ⟨m.z.x, m.z.z⟩⟩
  | 1, 2 => ⟨⟨m.x.x, m.x.y⟩, ⟨m.z.x, m.z.y⟩⟩
  | 2, 0 => ⟨⟨m.x.y, m.x.z⟩, ⟨m.y.y, m.y.z⟩⟩
  | 2, 1 => ⟨⟨m.x.x, m.x.z⟩, ⟨m.y.x, m.y.z⟩⟩
  | 2, 2 => ⟨⟨m.x.x, m.x.y⟩, ⟨m.y.x, m.y.y⟩⟩

/-- Source `Matrix3x3::cofactor_matrix`: entry `(i, j)` is the determinant of the
`(i, j)` minor, negated when `i + j` is odd (loop unrolled). -/
def cofactorMatrix (m : Matrix3x3 α) : Matrix3x3 α :=
  ⟨⟨(m.subMatrix 0 0).determinant, -(m.subMatrix 0 1).determinant, (m.subMatrix 0 2).determinant⟩,
   ⟨-(m.subMatrix 1 0).determinant, (m.subMatrix 1 1).determinant, -(m.subMatrix 1 2).determinant⟩,
   ⟨(m.subMatrix 2 0).determinant, -(m.subMatrix 2 1).determinant, (m.subMatrix 2 2).determinant⟩⟩

/-- Source `Matrix3x3::transpose`. -/
def transpose (m : Matrix3x3 α) : Matrix3x3 α :=
  ⟨⟨m.x.x, m.y.x, m.z.x⟩, ⟨m.x.y, m.y.y, m.z.y⟩, ⟨m.x.z, m.y.z, m.z.z⟩⟩

/-- Source `Matrix3x3::adjugate`: transpose of the cofactor matrix. -/
def adjugate (m : Matrix3x3 α) : Matrix3x3 α := m.cofactorMatrix.transpose

/-- Source `Matrix3x3::determinant`: cofactor expansion along the first row. -/
def determinant (m : Matrix3x3 α) : α :=
  m.x.x * (m.subMatrix 0 0).determinant
    - m.x.y * (m.subMatrix 0 1).determinant
    + m.x.z * (m.subMatrix 0 2).determinant

/-- Source `impl Mul<f32> for Matrix3x3` (scalar multiplication, row-wise). -/
def mulScalar (a : Matrix3x3 α) (c : α) : Matrix3x3 α :=
  ⟨a.x.mulScalar c, a.y.mulScalar c, a.z.mulScalar c⟩

/-- Source `Matrix3x3::inverse`: panics with "Matrix is not invertible" when the
determinant is exactly zero, otherwise returns the adjugate scaled by
`1/determinant`. -/
def inverse (m : Matrix3x3 α) : Except String (Matrix3x3 α) :=
  let det := m.determinant
  if det = 0 then
    Except.error "Matrix is not invertible"
  else
    Except.ok (m.adjugate.mulScalar (1 / det))

/-- Source `impl Mul for Matrix3x3`: row-by-column product, entries written out as
in the source. -/
def mul (a b : Matrix3x3 α) : Matrix3x3 α :=
  ⟨⟨a.x.x * b.x.x + a.x.y * b.y.x + a.x.z * b.z.x,
    a.x.x * b.x.y + a.x.y * b.y.y + a.x.z * b.z.y,
    a.x.x * b.x.z + a.x.y * b.y.z + a.x.z * b.z.z⟩,
   ⟨a.y.x * b.x.x + a.y.y * b.y.x + a.y.z * b.z.x,
    a.y.x * b.x.y + a.y.y * b.y.y + a.y.z * b.z.y,
    a.y.x * b.x.z + a.y.y * b.y.z + a.y.z * b.z.z⟩,
   ⟨a.z.x * b.x.x + a.z.y * b.y.x + a.z.z * b.z.x,
    a.z.x * b.x.y + a.z.y * b.y.y + a.z.z * b.z.y,
    a.z.x * b.x.z + a.z.y * b.y.z + a.z.z * b.z.z⟩⟩

/-- The derived `PartialEq` on `Matrix3x3` compares rows with `Vec3`'s
approximate equality. -/
def meq (a b : Matrix3x3 ℚ) : Prop :=
  Vec3.veq a.x b.x ∧ Vec3.veq a.y b.y ∧ Vec3.veq a.z b.z

instance (a b : Matrix3x3 ℚ) : Decidable (meq a b) := by
  unfold meq; infer_instance

end Matrix3x3

/-- Source `Matrix4x4` from `geom/matrix/matrix4x4.rs`: four row vectors. -/
@[ext]
structure Matrix4x4 (α : Type) where
  x : Vec4 α
  y : Vec4 α
  z : Vec4 α
  w : Vec4 α
  deriving DecidableEq, Repr

namespace Matrix4x4

variable {α : Type} [Field α] [DecidableEq α]

/-- Source `Matrix4x4::identity`. -/
def identity : Matrix4x4 α :=
  ⟨⟨1, 0, 0, 0⟩, ⟨0, 1, 0, 0⟩, ⟨0, 0, 1, 0⟩, ⟨0, 0, 0, 1⟩⟩

/-- Source `Matrix4x4::sub_matrix(row, col)`: drops the given row and column,
keeping the remaining entries in order.  The source asserts `row < 4` and
`col < 4` and fills the result with two nested loops; here the loop is
unrolled into the sixteen `(row, col)` cases, and the assertion becomes the
`Fin 4` domain. -/
def subMatrix (m : Matrix4x4 α) (row col : Fin 4) : Matrix3x3 α :=
  match row, col with
  | 0, 0 => ⟨⟨m.y.y, m.y.z, m.y.w⟩, ⟨m.z.y, m.z.z, m.z.w⟩, ⟨m.w.y, m.w.z, m.w.w⟩⟩
  | 0, 1 => ⟨⟨m.y.x, m.y.z, m.y.w⟩, ⟨m.z.x, m.z.z, m.z.w⟩, ⟨m.w.x, m.w.z, m.w.w⟩⟩
  | 0, 2 => ⟨⟨m.y.x, m.y.y, m.y.w⟩, ⟨m.z.x, m.z.y, m.z.w⟩, ⟨m.w.x, m.w.y, m.w.w⟩⟩
  | 0, 3 => ⟨⟨m.y.x, m.y.y, m.y.z⟩, ⟨m.z.x, m.z.y, m.z.z⟩, ⟨m.w.x, m.w.y, m.w.z⟩⟩
  | 1, 0 => ⟨⟨m.x.y, m.x.z, m.x.w⟩, ⟨m.z.y, m.z.z, m.z.w⟩, ⟨m.w.y, m.w.z, m.w.w⟩⟩
  | 1, 1 => ⟨⟨m.x.x, m.x.z, m.x.w⟩, ⟨m.z.x, m.z.z, m.z.w⟩, ⟨m.w.x, m.w.z, m.w.w⟩⟩
  | 1, 2 => ⟨⟨m.x.x, m.x.y, m.x.w⟩, ⟨m.z.x, m.z.y, m.z.w⟩, ⟨m.w.x, m.w.y, m.w.w⟩⟩
  | 1, 3 => ⟨⟨m.x.x, m.x.y, m.x.z⟩, ⟨m.z.x, m.z.y, m.z.z⟩, ⟨m.w.x, m.w.y, m.w.z⟩⟩
  | 2, 0 => ⟨⟨m.x.y, m.x.z, m.x.w⟩, ⟨m.y.y, m.y.z, m.y.w⟩, ⟨m.w.y, m.w.z, m.w.w⟩⟩
  | 2, 1 => ⟨⟨m.x.x, m.x.z, m.x.w⟩, ⟨m.y.x, m.y.z, m.y.w⟩, ⟨m.w.x, m.w.z, m.w.w⟩⟩
  | 2, 2 => ⟨⟨m.x.x, m.x.y, m.x.w⟩, ⟨m.y.x, m.y.y, m.y.w⟩, ⟨m.w.x, m.w.y, m.w.w⟩⟩
  | 2, 3 => ⟨⟨m.x.x, m.x.y, m.x.z⟩, ⟨m.y.x, m.y.y, m.y.z⟩, ⟨m.w.x, m.w.y, m.w.z⟩⟩
  | 3, 0 => ⟨⟨m.x.y, m.x.z, m.x.w⟩, ⟨m.y.y, m.y.z, m.y.w⟩, ⟨m.z.y, m.z.z, m.z.w⟩⟩
  | 3, 1 => ⟨⟨m.x.x, m.x.z, m.x.w⟩, ⟨m.y.x, m.y.z, m.y.w⟩, ⟨m.z.x, m.z.z, m.z.w⟩⟩
  | 3, 2 => ⟨⟨m.x.x, m.x.y, m.x.w⟩, ⟨m.y.x, m.y.y, m.y.w⟩, ⟨m.z.x, m.z.y, m.z.w⟩⟩
  | 3, 3 => ⟨⟨m.x.x, m.x.y, m.x.z⟩, ⟨m.y.x, m.y.y, m.y.z⟩, ⟨m.z.x, m.z.y, m.z.z⟩⟩

/-- Source `Matrix4x4::cofactor_matrix`: entry `(i, j)` is the determinant of the
`(i, j)` minor, negated when `i + j` is odd (loop unrolled). -/
def cofactorMatrix (m : Matrix4x4 α) : Matrix4x4 α :=
  ⟨⟨(m.subMatrix 0 0).determinant,
    -(m.subMatrix 0 1).determinant,
    (m.subMatrix 0 2).determinant,
    -(m.subMatrix 0 3).determinant⟩,
   ⟨-(m.subMatrix 1 0).determinant,
    (m.subMatrix 1 1).determinant,
    -(m.subMatrix 1 2).determinant,
    (m.subMatrix 1 3).determinant⟩,
   ⟨(m.subMatrix 2 0).determinant,
    -(m.subMatrix 2 1).determinant,
    (m.subMatrix 2 2).determinant,
    -(m.subMatrix 2 3).determinant⟩,
   ⟨-(m.subMatrix 3 0).determinant,
    (m.subMatrix 3 1).determinant,
    -(m.subMatrix 3 2).determinant,
    (m.subMatrix 3 3).determinant⟩⟩

/-- Source `Matrix4x4::transpose`. -/
def transpose (m : Matrix4x4 α) : Matrix4x4 α :=
  ⟨⟨m.x.x, m.y.x, m.z.x, m.w.x⟩,
   ⟨m.x.y, m.y.y, m.z.y, m.w.y⟩,
   ⟨m.x.z, m.y.z, m.z.z, m.w.z⟩,
   ⟨m.x.w, m.y.w, m.z.w, m.w.w⟩⟩

/-- Source `Matrix4x4::adjugate`: transpose of the cofactor matrix. -/
def adjugate (m : Matrix4x4 α) : Matrix4x4 α := m.cofactorMatrix.transpose

/-- Source `Matrix4x4::determinant`: cofactor expansion along the first row. -/
def determinant (m : Matrix4x4 α) : α :=
  m.x.x * (m.subMatrix 0 0).determinant
    - m.x.y * (m.subMatrix 0 1).determinant
    + m.x.z * (m.subMatrix 0 2).determinant
    - m.x.w * (m.subMatrix 0 3).determinant

/-- Source `impl Mul<f32> for Matrix4x4` (scalar multiplication, row-wise). -/
def mulScalar (a : Matrix4x4 α) (c : α) : Matrix4x4 α :=
  ⟨a.x.mulScalar c, a.y.mulScalar c, a.z.mulScalar c, a.w.mulScalar c⟩

/-- Source `Matrix4x4::inverse`: panics with "Matrix is not invertible" when the
determinant is exactly zero, otherwise returns the adjugate scaled by
`1/determinant`. -/
def inverse (m : Matrix4x4 α) : Except String (Matrix4x4 α) :=
  let det := m.determinant
  if det = 0 then
    Except.error "Matrix is not invertible"
  else
    Except.ok (m.adjugate.mulScalar (1 / det))

/-- Source `impl Mul for Matrix4x4`: row-by-column product, entries written out as
in the source. -/
def mul (a b : Matrix4x4 α) : Matrix4x4 α :=
  ⟨⟨a.x.x * b.x.x + a.x.y * b.y.x + a.x.z * b.z.x + a.x.w * b.w.x,
    a.x.x * b.x.y + a.x.y * b.y.y + a.x.z * b.z.y + a.x.w * b.w.y,
    a.x.x * b.x.z + a.x.y * b.y.z + a.x.z * b.z.z + a.x.w * b.w.z,
    a.x.x * b.x.w + a.x.y * b.y.w + a.x.z * b.z.w + a.x.w * b.w.w⟩,
   ⟨a.y.x * b.x.x + a.y.y * b.y.x + a.y.z * b.z.x + a.y.w * b.w.x,
    a.y.x * b.x.y + a.y.y * b.y.y + a.y.z * b.z.y + a.y.w * b.w.y,
    a.y.x * b.x.z + a.y.y * b.y.z + a.y.z * b.z.z + a.y.w * b.w.z,
    a.y.x * b.x.w + a.y.y * b.y.w + a.y.z * b.z.w + a.y.w * b.w.w⟩,
   ⟨a.z.x * b.x.x + a.z.y * b.y.x + a.z.z * b.z.x + a.z.w * b.w.x,
    a.z.x * b.x.y + a.z.y * b.y.y + a.z.z * b.z.y + a.z.w * b.w.y,
    a.z.x * b.x.z + a.z.y * b.y.z + a.z.z * b.z.z + a.z.w * b.w.z,
    a.z.x * b.x.w + a.z.y * b.y.w + a.z.z * b.z.w + a.z.w * b.w.w⟩,
   ⟨a.w.x * b.x.x + a.w.y * b.y.x + a.w.z * b.z.x + a.w.w * b.w.x,
    a.w.x * b.x.y + a.w.y * b.y.y + a.w.z * b.z.y + a.w.w * b.w.y,
    a.w.x * b.x.z + a.w.y * b.y.z + a.w.z * b.z.z + a.w.w * b.w.z,
    a.w.x * b.x.w + a.w.y * b.y.w + a.w.z * b.z.w + a.w.w * b.w.w⟩⟩

/-- The derived `PartialEq` on `Matrix4x4` compares rows with `Vec4`'s
approximate equality. -/
def meq (a b : Matrix4x4 ℚ) : Prop :=
  Vec4.veq a.x b.x ∧ Vec4.veq a.y b.y ∧ Vec4.veq a.z b.z ∧ Vec4.veq a.w b.w

instance (a b : Matrix4x4 ℚ) : Decidable (meq a b) := by
  unfold meq; infer_instance

end Matrix4x4

/-- Source `Camera` from `geom/camera.rs`: position plus the projection matrix and
its precomputed inverse. -/
structure Camera where
  position : Vec3 ℝ
  camera_matrix : Matrix3x3 ℝ
  camera_matrix_inverse : Matrix3x3 ℝ

/-- The pinhole intrinsic matrix built in `Camera::new`: principal point at
the image centre, focal lengths `c/tan(fov/2)` for each axis. -/
noncomputable def cameraMatrix (image_width image_height : ℕ) (h_fov v_fov : ℝ) :
    Matrix3x3 ℝ :=
  let c_x : ℝ := (image_width : ℝ) / 2
  let c_y : ℝ := (image_height : ℝ) / 2
  let f_x : ℝ := c_x / Real.tan (h_fov / 2)
  let f_y : ℝ := c_y / Real.tan (v_fov / 2)
  ⟨⟨f_x, 0, c_x⟩, ⟨0, f_y, c_y⟩, ⟨0, 0, 1⟩⟩

/-- Source `Camera::new`: builds the intrinsic matrix and inverts it once; the
inversion is the source's `Matrix3x3::inverse`, which is fatal on a zero
determinant. -/
noncomputable def Camera.new (position : Vec3 ℝ) (image_width image_height : ℕ)
    (h_fov v_fov : ℝ) : Except String Camera := do
  let cm := cameraMatrix image_width image_height h_fov v_fov
  let inv ← cm.inverse
  pure ⟨position, cm, inv⟩

/-- Source `Flag` from `util/shapes.rs`: the flag selector enum (one variant).
Named `ShapeFlag` here because `Flag` is taken by Mathlib. -/
inductive ShapeFlag
  | enabled
  deriving DecidableEq, Repr

/-- Source `Flags` from `util/shapes.rs`: per-shape flag bitset (one boolean). -/
structure Flags where
  enabled : Bool
  deriving DecidableEq, Repr

namespace Flags

/-- Source `Flags::enabled()`: the constructor used by the factory methods. -/
def mkEnabled : Flags := ⟨true⟩

/-- Source `Flags::as_u32`: packs the booleans into a `u32`. -/
def as_u32 (f : Flags) : Nat := (if f.enabled then 1 else 0) <<< 0

/-- Source `Flags::get_flag`. -/
def get_flag (f : Flags) : ShapeFlag → Bool
  | .enabled => f.enabled

/-- Source `Flags::set_flag`. -/
def set_flag (f : Flags) (fl : ShapeFlag) (v : Bool) : Flags :=
  match fl with
  | .enabled => { f with enabled := v }

end Flags

/-- The exact value of `f32::MAX` (`2^128 - 2^104`), used as fold seed and
in the default bounding box. -/
def f32MAX : ℚ := 340282346638528859811704183484516925440

/-- The exact value of `f32::MIN` (`-f32::MAX`). -/
def f32MIN : ℚ := -f32MAX

/-- Source `u32::MAX_VALUE`, the sentinel index. -/
def u32MAX : Nat := 4294967295

/-- The modulus of `u32` arithmetic, `2^32`: the kind-local counters and
the `len() as u32` casts are 32-bit, and release-mode overflow wraps
modulo this value. -/
def u32Size : Nat := 4294967296

/-- Fuel-driven floor of the base-2 logarithm of a natural number (the
fuel argument only bounds the recursion; `natLog2` passes the number
itself, which always suffices). -/
def natLog2F : ℕ → ℕ → ℕ
  | 0, _ => 0
  | fuel + 1, n => if n ≤ 1 then 0 else natLog2F fuel (n / 2) + 1

/-- Floor of the base-2 logarithm of a natural number (0 at 0 and 1). -/
def natLog2 (n : ℕ) : ℕ := natLog2F n n

/-- Integer powers of two as rationals. -/
def qpow2 (e : ℤ) : ℚ :=
  if 0 ≤ e then ((2 ^ e.toNat : ℕ) : ℚ) else 1 / ((2 ^ (-e).toNat : ℕ) : ℚ)

/-- Floor of the base-2 logarithm of a positive rational: the exponent of
its binade.  From the numerator and denominator logarithms the answer is
one of two consecutive integers; one comparison decides which. -/
def flog2 (q : ℚ) : ℤ :=
  (fun e0 : ℤ => if q < qpow2 e0 then e0 - 1 else e0)
    ((natLog2 q.num.toNat : ℤ) - (natLog2 q.den : ℤ))

/-- Round a rational to the nearest integer, ties to even — the IEEE 754
default rounding applied at integer granularity. -/
def roundHalfEven (x : ℚ) : ℤ :=
  if x - ⌊x⌋ < 1 / 2 then ⌊x⌋
  else if 1 / 2 < x - ⌊x⌋ then ⌊x⌋ + 1
  else if ⌊x⌋ % 2 = 0 then ⌊x⌋ else ⌊x⌋ + 1

/-- Round a rational to the nearest `f32` value (round to nearest, ties to
even): quantise the magnitude to the precision grid `2^(e-23)` of its
binade `e`, clamped at `2^-149` for subnormals.  An IEEE operation whose
exact result is `q` returns exactly this value; the model covers the
finite range `|q| < 2^128`, which contains every value the embedded code
feeds it. -/
def roundF32 (q : ℚ) : ℚ :=
  if q = 0 then 0
  else
    (if q < 0 then -1 else 1) *
      ((roundHalfEven ((if q < 0 then -q else q) /
          qpow2 (max (flog2 (if q < 0 then -q else q) - 23) (-149))) : ℚ) *
        qpow2 (max (flog2 (if q < 0 then -q else q) - 23) (-149)))

/-- The trait objects stored by the manager (`Box<dyn Shape>`): the three
concrete variants `Sphere`, `Cube` and `Union` with the fields of the
source structs (the cube quaternion is kept as `(v.x, v.y, v.z, s)`). -/
inductive Shape
  | sphere (pos : Vec3 ℚ) (radius : ℚ) (color : Vec3 ℚ) (index : Nat) (flags : Flags)
  | cube (pos bounds : Vec3 ℚ) (rot : Vec4 ℚ) (color : Vec3 ℚ) (index : Nat) (flags : Flags)
  | union (left right : Nat) (index : Nat) (flags : Flags)
  deriving DecidableEq, Repr

namespace Shape

/-- Source `Shape::get_flags`. -/
def get_flags : Shape → Flags
  | .sphere _ _ _ _ f => f
  | .cube _ _ _ _ _ f => f
  | .union _ _ _ f => f

/-- Source `Shape::set_flag` (through `get_flags_mut`). -/
def set_flag (s : Shape) (fl : ShapeFlag) (v : Bool) : Shape :=
  match s with
  | .sphere p r c i f => .sphere p r c i (f.set_flag fl v)
  | .cube p b q c i f => .cube p b q c i (f.set_flag fl v)
  | .union l r i f => .union l r i (f.set_flag fl v)

/-- Source `Shape::get_flag`. -/
def get_flag (s : Shape) (fl : ShapeFlag) : Bool := s.get_flags.get_flag fl

/-- Source `Shape::get_index`. -/
def get_index : Shape → Nat
  | .sphere _ _ _ i _ => i
  | .cube _ _ _ _ i _ => i
  | .union _ _ i _ => i

/-- Source `get_world_bounding_box`: centre ± radius (sphere), centre ± bounds
(cube); `todo!()` — a fatal error — for `Union`. -/
def get_world_bounding_box : Shape → Except String (Vec3 ℚ × Vec3 ℚ)
  | .sphere p r _ _ _ =>
      .ok (⟨p.x - r, p.y - r, p.z - r⟩, ⟨p.x + r, p.y + r, p.z + r⟩)
  | .cube p b _ _ _ _ =>
      .ok (⟨p.x - b.x, p.y - b.y, p.z - b.z⟩, ⟨p.x + b.x, p.y + b.y, p.z + b.z⟩)
  | .union _ _ _ _ => .error "not yet implemented"

end Shape

/-- Source `impl Mul<Vec4> for Matrix4x4` — also the semantics of the external
matrix-vector products used in the bounding-box pipeline. -/
def Matrix4x4.mulVec (a : Matrix4x4 ℚ) (v : Vec4 ℚ) : Vec4 ℚ :=
  ⟨a.x.x * v.x + a.x.y * v.y + a.x.z * v.z + a.x.w * v.w,
   a.y.x * v.x + a.y.y * v.y + a.y.z * v.z + a.y.w * v.w,
   a.z.x * v.x + a.z.y * v.y + a.z.z * v.z + a.z.w * v.w,
   a.w.x * v.x + a.w.y * v.y + a.w.z * v.z + a.w.w * v.w⟩

namespace Shape

/-- Source `Shape::get_screen_bounding_box`: enumerate the 8 world-box corners,
transform through the inverse-camera and projection matrices, perspective
divide, map NDC to pixels, and fold component-wise min/max (fold seeds
`f32::MAX` and `f32::MIN` as in the source). -/
def get_screen_bounding_box (s : Shape) (inv_c proj : Matrix4x4 ℚ)
    (screen : Nat × Nat) : Except String (Vec4 ℚ) := do
  let (c1, c2) ← s.get_world_bounding_box
  let corners : List (Vec3 ℚ) :=
    [⟨c1.x, c1.y, c1.z⟩, ⟨c1.x, c1.y, c2.z⟩, ⟨c1.x, c2.y, c1.z⟩, ⟨c1.x, c2.y, c2.z⟩,
     ⟨c2.x, c1.y, c1.z⟩, ⟨c2.x, c1.y, c2.z⟩, ⟨c2.x, c2.y, c1.z⟩, ⟨c2.x, c2.y, c2.z⟩]
  let pts : List (Vec2 ℚ) := corners.map fun c =>
    let cam := inv_c.mulVec ⟨c.x, c.y, c.z, 1⟩
    let clip := proj.mulVec cam
    let ndc : Vec3 ℚ := ⟨clip.x / clip.w, clip.y / clip.w, clip.z / clip.w⟩
    let unit : Vec2 ℚ := ⟨(ndc.x + 1) / 2, (ndc.y + 1) / 2⟩
    (⟨unit.x * (screen.1 : ℚ), unit.y * (screen.2 : ℚ)⟩ : Vec2 ℚ)
  let mn := pts.foldl (fun acc c => (⟨min acc.x c.x, min acc.y c.y⟩ : Vec2 ℚ))
    ⟨f32MAX, f32MAX⟩
  let mx := pts.foldl (fun acc c => (⟨max acc.x c.x, max acc.y c.y⟩ : Vec2 ℚ))
    ⟨f32MIN, f32MIN⟩
  pure ⟨mn.x, mn.y, mx.x, mx.y⟩

end Shape

/-- Source `ShapeData` from `util/shapes.rs`: the generic per-shape GPU record
(`repr(C)`: 4 f32 colour, u32 index, u32 type, u32 flags, 1 f32 padding,
4 f32 bounding box — twelve 32-bit fields, 48 bytes). -/
structure ShapeData where
  color : Vec4 ℚ
  index : Nat
  shape_type : Nat
  flags : Nat
  padding : ℚ
  bounding_box : Vec4 ℚ
  deriving DecidableEq, Repr

/-- Source `impl Default for ShapeData`: zero colour, `u32::MAX` index and type,
zero flags, full-screen bounding box. -/
def ShapeData.default : ShapeData :=
  ⟨⟨0, 0, 0, 0⟩, u32MAX, u32MAX, 0, 0, ⟨f32MIN, f32MIN, f32MAX, f32MAX⟩⟩

/-- One 32-bit scalar of a serialized GPU buffer (`bytemuck::cast_slice`
emits the `repr(C)` fields in declaration order, four bytes each). -/
inductive GpuWord
  | f32 (val : ℚ)
  | u32 (val : Nat)
  deriving DecidableEq, Repr

/-- The twelve 32-bit fields of a `ShapeData` record in `repr(C)` order. -/
def ShapeData.toWords (d : ShapeData) : List GpuWord :=
  [.f32 d.color.x, .f32 d.color.y, .f32 d.color.z, .f32 d.color.w,
   .u32 d.index, .u32 d.shape_type, .u32 d.flags, .f32 d.padding,
   .f32 d.bounding_box.x, .f32 d.bounding_box.y, .f32 d.bounding_box.z,
   .f32 d.bounding_box.w]

/-- Byte length of a serialized buffer: each 32-bit word is four bytes. -/
def byteLength (ws : List GpuWord) : Nat := 4 * ws.length

/-- Source `Shape::shape_data`: colour, kind-local index, kind tag
(0 = sphere, 1 = cube, 2 = union), packed flags, and the screen bounding
box (fatal for `Union`, whose world box is `todo!()`). -/
def Shape.shape_data (s : Shape) (inv_c proj : Matrix4x4 ℚ) (screen : Nat × Nat) :
    Except String ShapeData := do
  let bb ← s.get_screen_bounding_box inv_c proj screen
  match s with
  | .sphere _ _ c i f => pure ⟨⟨c.x, c.y, c.z, 0⟩, i, 0, f.as_u32, 0, bb⟩
  | .cube _ _ _ c i f => pure ⟨⟨c.x, c.y, c.z, 0⟩, i, 1, f.as_u32, 0, bb⟩
  | .union _ _ i f => pure ⟨⟨0, 0, 0, 0⟩, i, 2, f.as_u32, 0, bb⟩

/-- Rust `Vec` read indexing `v[i]`: panics ("index out of bounds") when
the index is not below the length. -/
def vecGet {β : Type} (l : List β) (i : Nat) : Except String β :=
  if h : i < l.length then .ok l[i] else .error "index out of bounds"

/-- Rust `Vec` write indexing `v[i] = a`: panics ("index out of bounds")
when the index is not below the length. -/
def vecSet {β : Type} (l : List β) (i : Nat) (a : β) : Except String (List β) :=
  if i < l.length then .ok (l.set i a) else .error "index out of bounds"

/-- In-place update of one element; used for the (already bounds-checked)
`get_shape_mut(...).unwrap()` mutations inside `new_union`. -/
def listModify {β : Type} : List β → Nat → (β → β) → List β
  | [], _, _ => []
  | a :: t, 0, f => f a :: t
  | a :: t, n + 1, f => a :: listModify t n f

/-- Source `ShapeManager` from `util/shapes.rs`: the polymorphic shape
collection, the fixed `[u32; 1000]` per-kind next-index counters, and the
per-kind index lists (`vec![vec![], vec![]]` — two lists only). -/
structure ShapeManager where
  shapes : List Shape
  indices : List Nat
  map : List (List Nat)
  deriving DecidableEq, Repr

namespace ShapeManager

/-- Source `ShapeManager::new`. -/
def new : ShapeManager := ⟨[], List.replicate 1000 0, [[], []]⟩

/-- Source `ShapeManager::get_shape`: `Vec::get`, an option, never panics. -/
def get_shape (m : ShapeManager) (index : Nat) : Option Shape :=
  m.shapes[index]?

/-- Source `ShapeManager::new_sphere`: records the storage position in `map[0]`
(`shapes.len() as u32`, truncating), appends a `Sphere` carrying the
current kind-local `u32` counter `indices[0]` and enabled flags,
increments the counter (`u32` wrap-around in release builds, written with
an explicit modulus), and hands back the new shape. -/
def new_sphere (m : ShapeManager) (pos : Vec3 ℚ) (radius : ℚ) (color : Vec3 ℚ) :
    Except String (ShapeManager × Shape) := do
  let slot ← vecGet m.map 0
  let map1 ← vecSet m.map 0 (slot ++ [m.shapes.length % u32Size])
  let idx ← vecGet m.indices 0
  let s : Shape := .sphere pos radius color idx Flags.mkEnabled
  let indices1 ← vecSet m.indices 0 ((idx + 1) % u32Size)
  pure (⟨m.shapes ++ [s], indices1, map1⟩, s)

/-- Source `ShapeManager::new_cube`: same bookkeeping against `map[1]` and
`indices[1]`; the rotation is `Quaternion::from_angle_z(0)`, i.e. the
identity quaternion `(0,0,0,1)`. -/
def new_cube (m : ShapeManager) (pos bounds color : Vec3 ℚ) :
    Except String (ShapeManager × Shape) := do
  let slot ← vecGet m.map 1
  let map1 ← vecSet m.map 1 (slot ++ [m.shapes.length % u32Size])
  let idx ← vecGet m.indices 1
  let s : Shape := .cube pos bounds ⟨0, 0, 0, 1⟩ color idx Flags.mkEnabled
  let indices1 ← vecSet m.indices 1 ((idx + 1) % u32Size)
  pure (⟨m.shapes ++ [s], indices1, map1⟩, s)

/-- Source `ShapeManager::new_union`: when either operand index fails to resolve,
returns `None` leaving the manager untouched; when both resolve, clears
both `Enabled` flags and then pushes onto `map[2]` — an index into the
two-element `map` vector, hence the bounds check. -/
def new_union (m : ShapeManager) (left right : Nat) :
    Except String (ShapeManager × Option Shape) :=
  match (m.get_shape left).isSome, (m.get_shape right).isSome with
  | true, true => do
      let shapes1 := listModify m.shapes left (fun s => s.set_flag .enabled false)
      let shapes2 := listModify shapes1 right (fun s => s.set_flag .enabled false)
      let slot ← vecGet m.map 2
      let map1 ← vecSet m.map 2 (slot ++ [shapes2.length % u32Size])
      let idx ← vecGet m.indices 2
      let u : Shape := .union left right idx Flags.mkEnabled
      let indices1 ← vecSet m.indices 2 ((idx + 1) % u32Size)
      pure (⟨shapes2 ++ [u], indices1, map1⟩, some u)
  | _, _ => .ok (m, none)

/-- Source `ShapeManager::serialize_shapes`: one `ShapeData` record per shape in
storage order; an empty manager yields exactly one default record. -/
def serialize_shapes (m : ShapeManager) (inv_c proj : Matrix4x4 ℚ)
    (screen : Nat × Nat) : Except String (List GpuWord) :=
  if m.shapes.length = 0 then
    .ok ShapeData.default.toWords
  else do
    let ds ← m.shapes.mapM (fun s => s.shape_data inv_c proj screen)
    pure (ds.map ShapeData.toWords).flatten

/-- Source `ShapeManager::buffer_size`: the source computes
`(raw_size as f32 / chunk_size as f32).ceil() as u32 * chunk_size`, with
`chunk_size` the device's minimum storage-buffer offset alignment (a
`u32`).  Both casts to `f32` and the division round to nearest, ties to
even (`roundF32`); the float-to-`u32` cast saturates to `[0, u32::MAX]`;
the final `u32` multiplication wraps.  (For `chunk_size = 0` the real
quotient is an infinity or NaN and the saturated `chunks` differs from
the 0 here, but the result after multiplying by `chunk_size = 0` is 0
either way.) -/
def buffer_size (raw_size chunk_size : Nat) : Nat :=
  (min (Int.toNat
      ⌈roundF32 (roundF32 (raw_size : ℚ) / roundF32 (chunk_size : ℚ))⌉) u32MAX *
    chunk_size) % u32Size

end ShapeManager

/-- A scene-construction call: the factory methods a caller can invoke to
populate a manager (`new_sphere` / `new_cube`). -/
inductive SceneOp
  | mkSphere (pos : Vec3 ℚ) (radius : ℚ) (color : Vec3 ℚ)
  | mkCube (pos bounds color : Vec3 ℚ)
  deriving DecidableEq, Repr

/-- Run one factory call against a manager. -/
def runOp (m : ShapeManager) : SceneOp → Except String ShapeManager
  | .mkSphere p r c => (m.new_sphere p r c).map Prod.fst
  | .mkCube p b c => (m.new_cube p b c).map Prod.fst

/-- Run a sequence of factory calls left to right. -/
def runOps (m : ShapeManager) : List SceneOp → Except String ShapeManager
  | [] => .ok m
  | op :: rest => do runOps (← runOp m op) rest

/-- Number of `new_sphere` calls in a sequence. -/
def countSpheres : List SceneOp → Nat
  | [] => 0
  | .mkSphere _ _ _ :: rest => countSpheres rest + 1
  | .mkCube _ _ _ :: rest => countSpheres rest

/-- The kind-local indices of the spheres of a shape list, in storage
order. -/
def sphereIndices (l : List Shape) : List Nat :=
  l.filterMap fun s =>
    match s with
    | .sphere _ _ _ i _ => some i
    | _ => none

/-- A small concrete scene used by witnesses: a cube, two spheres, then
another cube. -/
def demoOps : List SceneOp :=
  [.mkCube ⟨0, 0, 0⟩ ⟨1, 1, 1⟩ ⟨0, 0, 0⟩,
   .mkSphere ⟨0, 0, 0⟩ 1 ⟨1, 1, 1⟩,
   .mkSphere ⟨2, 0, 0⟩ 1 ⟨1, 1, 1⟩,
   .mkCube ⟨4, 0, 0⟩ ⟨1, 1, 1⟩ ⟨0, 0, 0⟩]

namespace Vec2

variable {α : Type} [Field α] [DecidableEq α]

theorem veq_of_eq_v2 {a b : Vec2 ℚ} (h : a = b) : veq a b := by
  subst h; constructor <;> simp [veps]

end Vec2

namespace Vec3

variable {α : Type} [Field α] [DecidableEq α]

theorem veq_of_eq_v3 {a b : Vec3 ℚ} (h : a = b) : veq a b := by
  subst h; refine ⟨?_, ?_, ?_⟩ <;> simp [veps]

end Vec3

namespace Vec4

variable {α : Type} [Field α] [DecidableEq α]

theorem veq_of_eq_v4 {a b : Vec4 ℚ} (h : a = b) : veq a b := by
  subst h; refine ⟨?_, ?_, ?_, ?_⟩ <;> simp [veps]

end Vec4

namespace Matrix2x2

variable {α : Type} [Field α] [DecidableEq α]

theorem meq_of_eq_m2 {a b : Matrix2x2 ℚ} (h : a = b) : meq a b :=
  ⟨Vec2.veq_of_eq_v2 (by rw [h]), Vec2.veq_of_eq_v2 (by rw [h])⟩

theorem inverse_eq_error_iff_m2 (m : Matrix2x2 ℚ) :
    m.inverse = Except.error "Matrix is not invertible" ↔ m.determinant = 0 := by
  unfold inverse
  by_cases h : m.determinant = 0 <;> simp [h]

theorem inverse_eq_ok_m2 (m : Matrix2x2 ℚ) (h : m.determinant ≠ 0) :
    m.inverse = Except.ok (m.adjugate.mulScalar (1 / m.determinant)) := by
  unfold inverse
  simp only [h, if_neg, ite_false]
  congr 1
  unfold adjugate mulScalar Vec2.mulScalar
  ext <;> field_simp

theorem mul_adjugate_m2 (m : Matrix2x2 ℚ) :
    m.mul m.adjugate = identity.mulScalar m.determinant := by
  unfold mul adjugate identity mulScalar Vec2.mulScalar determinant
  ext <;> dsimp <;> ring

theorem adjugate_mul_m2 (m : Matrix2x2 ℚ) :
    m.adjugate.mul m = identity.mulScalar m.determinant := by
  unfold mul adjugate identity mulScalar Vec2.mulScalar determinant
  ext <;> dsimp <;> ring

theorem mul_mulScalar_right_m2 (a b : Matrix2x2 ℚ) (c : ℚ) :
    a.mul (b.mulScalar c) = (a.mul b).mulScalar c := by
  unfold mul mulScalar Vec2.mulScalar
  ext <;> dsimp <;> ring

theorem mul_mulScalar_left_m2 (a b : Matrix2x2 ℚ) (c : ℚ) :
    (a.mulScalar c).mul b = (a.mul b).mulScalar c := by
  unfold mul mulScalar Vec2.mulScalar
  ext <;> dsimp <;> ring

theorem mulScalar_mulScalar_m2 (a : Matrix2x2 ℚ) (c d : ℚ) :
    (a.mulScalar c).mulScalar d = a.mulScalar (c * d) := by
  unfold mulScalar Vec2.mulScalar
  ext <;> dsimp <;> ring

theorem mulScalar_one_m2 (a : Matrix2x2 ℚ) : a.mulScalar 1 = a := by
  unfold mulScalar Vec2.mulScalar
  ext <;> dsimp <;> ring

theorem mul_assoc_m2 (a b c : Matrix2x2 ℚ) : (a.mul b).mul c = a.mul (b.mul c) := by
  unfold mul
  ext <;> dsimp <;> ring

theorem identity_mul_m2 (a : Matrix2x2 ℚ) : identity.mul a = a := by
  unfold mul identity
  ext <;> dsimp <;> ring

theorem mul_identity_m2 (a : Matrix2x2 ℚ) : a.mul identity = a := by
  unfold mul identity
  ext <;> dsimp <;> ring

theorem det_mul_m2 (a b : Matrix2x2 ℚ) :
    (a.mul b).determinant = a.determinant * b.determinant := by
  unfold mul determinant
  dsimp
  ring

theorem det_identity_m2 : (identity : Matrix2x2 ℚ).determinant = 1 := by
  unfold identity determinant
  norm_num

/-- From `det ≠ 0`: the source inverse is a genuine two-sided inverse. -/
theorem inverse_spec_m2 (m : Matrix2x2 ℚ) (h : m.determinant ≠ 0) :
    ∃ n, m.inverse = Except.ok n ∧ m.mul n = identity ∧ n.mul m = identity := by
  refine ⟨m.adjugate.mulScalar (1 / m.determinant), inverse_eq_ok_m2 m h, ?_, ?_⟩
  · rw [mul_mulScalar_right_m2, mul_adjugate_m2, mulScalar_mulScalar_m2]
    rw [mul_one_div, div_self h, mulScalar_one_m2]
  · rw [mul_mulScalar_left_m2, adjugate_mul_m2, mulScalar_mulScalar_m2]
    rw [mul_one_div, div_self h, mulScalar_one_m2]

end Matrix2x2

namespace Matrix3x3

variable {α : Type} [Field α] [DecidableEq α]

theorem meq_of_eq_m3 {a b : Matrix3x3 ℚ} (h : a = b) : meq a b :=
  ⟨Vec3.veq_of_eq_v3 (by rw [h]), Vec3.veq_of_eq_v3 (by rw [h]), Vec3.veq_of_eq_v3 (by rw [h])⟩

theorem inverse_eq_error_iff_m3 (m : Matrix3x3 α) :
    m.inverse = Except.error "Matrix is not invertible" ↔ m.determinant = 0 := by
  unfold inverse
  by_cases h : m.determinant = 0 <;> simp [h]

theorem inverse_eq_ok_m3 (m : Matrix3x3 α) (h : m.determinant ≠ 0) :
    m.inverse = Except.ok (m.adjugate.mulScalar (1 / m.determinant)) := by
  unfold inverse
  simp [h]

theorem mul_adjugate_m3 (m : Matrix3x3 ℚ) :
    m.mul m.adjugate = identity.mulScalar m.determinant := by
  unfold mul adjugate cofactorMatrix transpose identity mulScalar Vec3.mulScalar
    determinant subMatrix Matrix2x2.determinant
  ext <;> dsimp <;> ring

theorem adjugate_mul_m3 (m : Matrix3x3 ℚ) :
    m.adjugate.mul m = identity.mulScalar m.determinant := by
  unfold mul adjugate cofactorMatrix transpose identity mulScalar Vec3.mulScalar
    determinant subMatrix Matrix2x2.determinant
  ext <;> dsimp <;> ring

theorem mul_mulScalar_right_m3 (a b : Matrix3x3 ℚ) (c : ℚ) :
    a.mul (b.mulScalar c) = (a.mul b).mulScalar c := by
  unfold mul mulScalar Vec3.mulScalar
  ext <;> dsimp <;> ring

theorem mul_mulScalar_left_m3 (a b : Matrix3x3 ℚ) (c : ℚ) :
    (a.mulScalar c).mul b = (a.mul b).mulScalar c := by
  unfold mul mulScalar Vec3.mulScalar
  ext <;> dsimp <;> ring

theorem mulScalar_mulScalar_m3 (a : Matrix3x3 ℚ) (c d : ℚ) :
    (a.mulScalar c).mulScalar d = a.mulScalar (c * d) := by
  unfold mulScalar Vec3.mulScalar
  ext <;> dsimp <;> ring

theorem mulScalar_one_m3 (a : Matrix3x3 ℚ) : a.mulScalar 1 = a := by
  unfold mulScalar Vec3.mulScalar
  ext <;> dsimp <;> ring

theorem mul_assoc_m3 (a b c : Matrix3x3 ℚ) : (a.mul b).mul c = a.mul (b.mul c) := by
  unfold mul
  ext <;> dsimp <;> ring

theorem identity_mul_m3 (a : Matrix3x3 ℚ) : identity.mul a = a := by
  unfold mul identity
  ext <;> dsimp <;> ring

theorem mul_identity_m3 (a : Matrix3x3 ℚ) : a.mul identity = a := by
  unfold mul identity
  ext <;> dsimp <;> ring

theorem det_mul_m3 (a b : Matrix3x3 ℚ) :
    (a.mul b).determinant = a.determinant * b.determinant := by
  unfold mul determinant subMatrix Matrix2x2.determinant
  dsimp
  ring

theorem det_identity_m3 : (identity : Matrix3x3 ℚ).determinant = 1 := by
  unfold identity determinant subMatrix Matrix2x2.determinant
  norm_num

/-- From `det ≠ 0`: the source inverse is a genuine two-sided inverse. -/
theorem inverse_spec_m3 (m : Matrix3x3 ℚ) (h : m.determinant ≠ 0) :
    ∃ n, m.inverse = Except.ok n ∧ m.mul n = identity ∧ n.mul m = identity := by
  refine ⟨m.adjugate.mulScalar (1 / m.determinant), inverse_eq_ok_m3 m h, ?_, ?_⟩
  · rw [mul_mulScalar_right_m3, mul_adjugate_m3, mulScalar_mulScalar_m3]
    rw [mul_one_div, div_self h, mulScalar_one_m3]
  · rw [mul_mulScalar_left_m3, adjugate_mul_m3, mulScalar_mulScalar_m3]
    rw [mul_one_div, div_self h, mulScalar_one_m3]

end Matrix3x3

namespace Matrix4x4

variable {α : Type} [Field α] [DecidableEq α]

theorem meq_of_eq_m4 {a b : Matrix4x4 ℚ} (h : a = b) : meq a b :=
  ⟨Vec4.veq_of_eq_v4 (by rw [h]), Vec4.veq_of_eq_v4 (by rw [h]),
   Vec4.veq_of_eq_v4 (by rw [h]), Vec4.veq_of_eq_v4 (by rw [h])⟩

theorem inverse_eq_error_iff_m4 (m : Matrix4x4 ℚ) :
    m.inverse = Except.error "Matrix is not invertible" ↔ m.determinant = 0 := by
  unfold inverse
  by_cases h : m.determinant = 0 <;> simp [h]

theorem inverse_eq_ok_m4 (m : Matrix4x4 ℚ) (h : m.determinant ≠ 0) :
    m.inverse = Except.ok (m.adjugate.mulScalar (1 / m.determinant)) := by
  unfold inverse
  simp [h]

theorem mul_adjugate_m4 (m : Matrix4x4 ℚ) :
    m.mul m.adjugate = identity.mulScalar m.determinant := by
  unfold mul adjugate cofactorMatrix transpose identity mulScalar Vec4.mulScalar
    determinant subMatrix Matrix3x3.determinant Matrix3x3.subMatrix
    Matrix2x2.determinant
  ext <;> dsimp <;> ring

theorem adjugate_mul_m4 (m : Matrix4x4 ℚ) :
    m.adjugate.mul m = identity.mulScalar m.determinant := by
  unfold mul adjugate cofactorMatrix transpose identity mulScalar Vec4.mulScalar
    determinant subMatrix Matrix3x3.determinant Matrix3x3.subMatrix
    Matrix2x2.determinant
  ext <;> dsimp <;> ring

theorem mul_mulScalar_right_m4 (a b : Matrix4x4 ℚ) (c : ℚ) :
    a.mul (b.mulScalar c) = (a.mul b).mulScalar c := by
  unfold mul mulScalar Vec4.mulScalar
  ext <;> dsimp <;> ring

theorem mul_mulScalar_left_m4 (a b : Matrix4x4 ℚ) (c : ℚ) :
    (a.mulScalar c).mul b = (a.mul b).mulScalar c := by
  unfold mul mulScalar Vec4.mulScalar
  ext <;> dsimp <;> ring

theorem mulScalar_mulScalar_m4 (a : Matrix4x4 ℚ) (c d : ℚ) :
    (a.mulScalar c).mulScalar d = a.mulScalar (c * d) := by
  unfold mulScalar Vec4.mulScalar
  ext <;> dsimp <;> ring

theorem mulScalar_one_m4 (a : Matrix4x4 ℚ) : a.mulScalar 1 = a := by
  unfold mulScalar Vec4.mulScalar
  ext <;> dsimp <;> ring

theorem mul_assoc_m4 (a b c : Matrix4x4 ℚ) : (a.mul b).mul c = a.mul (b.mul c) := by
  unfold mul
  ext <;> dsimp <;> ring

theorem identity_mul_m4 (a : Matrix4x4 ℚ) : identity.mul a = a := by
  unfold mul identity
  ext <;> dsimp <;> ring

theorem mul_identity_m4 (a : Matrix4x4 ℚ) : a.mul identity = a := by
  unfold mul identity
  ext <;> dsimp <;> ring

theorem det_mul_m4 (a b : Matrix4x4 ℚ) :
    (a.mul b).determinant = a.determinant * b.determinant := by
  unfold mul determinant subMatrix Matrix3x3.determinant Matrix3x3.subMatrix
    Matrix2x2.determinant
  dsimp
  ring

theorem det_identity_m4 : (identity : Matrix4x4 ℚ).determinant = 1 := by
  unfold identity determinant subMatrix Matrix3x3.determinant Matrix3x3.subMatrix
    Matrix2x2.determinant
  norm_num

/-- From `det ≠ 0`: the source inverse is a genuine two-sided inverse. -/
theorem inverse_spec_m4 (m : Matrix4x4 ℚ) (h : m.determinant ≠ 0) :
    ∃ n, m.inverse = Except.ok n ∧ m.mul n = identity ∧ n.mul m = identity := by
  refine ⟨m.adjugate.mulScalar (1 / m.determinant), inverse_eq_ok_m4 m h, ?_, ?_⟩
  · rw [mul_mulScalar_right_m4, mul_adjugate_m4, mulScalar_mulScalar_m4]
    rw [mul_one_div, div_self h, mulScalar_one_m4]
  · rw [mul_mulScalar_left_m4, adjugate_mul_m4, mulScalar_mulScalar_m4]
    rw [mul_one_div, div_self h, mulScalar_one_m4]

end Matrix4x4

/-- Claim C2. The claim: `a -= b` on `Vec3` subtracts in all three components,
agreeing with `a - b`.  Counterexample: the source's `SubAssign` never
touches `z`, so at `a = (0,0,0)`, `b = (0,0,1)` it returns `(0,0,0)` while
`a - b = (0,0,-1)`; the results differ even under the source's approximate
equality. -/
theorem c2_sub_assign_drops_z :
    Vec3.subAssign (⟨0, 0, 0⟩ : Vec3 ℚ) ⟨0, 0, 1⟩ = ⟨0, 0, 0⟩ ∧
    Vec3.sub (⟨0, 0, 0⟩ : Vec3 ℚ) ⟨0, 0, 1⟩ = ⟨0, 0, -1⟩ ∧
    Vec3.subAssign (⟨0, 0, 0⟩ : Vec3 ℚ) ⟨0, 0, 1⟩ ≠
      Vec3.sub (⟨0, 0, 0⟩ : Vec3 ℚ) ⟨0, 0, 1⟩ ∧
    ¬ Vec3.veq (Vec3.subAssign (⟨0, 0, 0⟩ : Vec3 ℚ) ⟨0, 0, 1⟩)
        (Vec3.sub (⟨0, 0, 0⟩ : Vec3 ℚ) ⟨0, 0, 1⟩) := by
  refine ⟨?_, ?_, ?_, ?_⟩
  · simp [Vec3.subAssign]
  · simp [Vec3.sub]
  · simp [Vec3.subAssign, Vec3.sub]
  · norm_num [Vec3.veq, veps, Vec3.subAssign, Vec3.sub]

/-- Claim C3. For each square matrix size, `inverse` fails with the message
"Matrix is not invertible" exactly when the computed determinant equals
zero, and otherwise returns the adjugate scaled by `1/determinant`. -/
theorem c3_inverse_fatal_iff_det_zero :
    (∀ m : Matrix2x2 ℚ,
      (m.inverse = Except.error "Matrix is not invertible" ↔ m.determinant = 0) ∧
      (m.determinant ≠ 0 →
        m.inverse = Except.ok (m.adjugate.mulScalar (1 / m.determinant)))) ∧
    (∀ m : Matrix3x3 ℚ,
      (m.inverse = Except.error "Matrix is not invertible" ↔ m.determinant = 0) ∧
      (m.determinant ≠ 0 →
        m.inverse = Except.ok (m.adjugate.mulScalar (1 / m.determinant)))) ∧
    (∀ m : Matrix4x4 ℚ,
      (m.inverse = Except.error "Matrix is not invertible" ↔ m.determinant = 0) ∧
      (m.determinant ≠ 0 →
        m.inverse = Except.ok (m.adjugate.mulScalar (1 / m.determinant)))) :=
  ⟨fun m => ⟨Matrix2x2.inverse_eq_error_iff_m2 m, fun h => Matrix2x2.inverse_eq_ok_m2 m h⟩,
   fun m => ⟨Matrix3x3.inverse_eq_error_iff_m3 m, fun h => Matrix3x3.inverse_eq_ok_m3 m h⟩,
   fun m => ⟨Matrix4x4.inverse_eq_error_iff_m4 m, fun h => Matrix4x4.inverse_eq_ok_m4 m h⟩⟩

/-- Concrete witness for C3 at the matrices used by the source's unit tests
(2x2 determinant `-2`; 3x3 determinant `1`; 4x4 determinant `2646`); the
hypotheses of `c3_inverse_fatal_iff_det_zero` are discharged by `decide`. -/
theorem c3_inverse_fatal_iff_det_zero_witness :
    ((⟨⟨1, 2⟩, ⟨3, 4⟩⟩ : Matrix2x2 ℚ).inverse =
      Except.ok ((⟨⟨1, 2⟩, ⟨3, 4⟩⟩ : Matrix2x2 ℚ).adjugate.mulScalar
        (1 / (⟨⟨1, 2⟩, ⟨3, 4⟩⟩ : Matrix2x2 ℚ).determinant))) ∧
    ((⟨⟨1, 2, 3⟩, ⟨0, 1, 4⟩, ⟨5, 6, 0⟩⟩ : Matrix3x3 ℚ).inverse =
      Except.ok ((⟨⟨1, 2, 3⟩, ⟨0, 1, 4⟩, ⟨5, 6, 0⟩⟩ : Matrix3x3 ℚ).adjugate.mulScalar
        (1 / (⟨⟨1, 2, 3⟩, ⟨0, 1, 4⟩, ⟨5, 6, 0⟩⟩ : Matrix3x3 ℚ).determinant))) ∧
    ((⟨⟨1, 8, 14, 3⟩, ⟨9, 5, 6, 13⟩, ⟨15, 2, 4, 11⟩, ⟨7, 12, 16, 10⟩⟩ : Matrix4x4 ℚ).inverse =
      Except.ok ((⟨⟨1, 8, 14, 3⟩, ⟨9, 5, 6, 13⟩, ⟨15, 2, 4, 11⟩,
          ⟨7, 12, 16, 10⟩⟩ : Matrix4x4 ℚ).adjugate.mulScalar
        (1 / (⟨⟨1, 8, 14, 3⟩, ⟨9, 5, 6, 13⟩, ⟨15, 2, 4, 11⟩,
          ⟨7, 12, 16, 10⟩⟩ : Matrix4x4 ℚ).determinant))) :=
  ⟨(c3_inverse_fatal_iff_det_zero.1 _).2 (by norm_num [Matrix2x2.determinant]),
   (c3_inverse_fatal_iff_det_zero.2.1 _).2
     (by norm_num [Matrix3x3.determinant, Matrix3x3.subMatrix, Matrix2x2.determinant]),
   (c3_inverse_fatal_iff_det_zero.2.2 _).2
     (by norm_num [Matrix4x4.determinant, Matrix4x4.subMatrix, Matrix3x3.determinant,
       Matrix3x3.subMatrix, Matrix2x2.determinant])⟩

/-- Claim C9. For positive image dimensions and fields of view strictly
between `0` and `π`, the pinhole matrix built by `Camera::new` has nonzero
determinant, so the inverse computed at construction succeeds and never
reaches the singular-matrix fatal error. -/
theorem c9_camera_matrix_invertible (p : Vec3 ℝ) (w h : ℕ) (hfov vfov : ℝ)
    (hw : 0 < w) (hh : 0 < h) (h1 : 0 < hfov) (h2 : hfov < Real.pi)
    (h3 : 0 < vfov) (h4 : vfov < Real.pi) :
    (cameraMatrix w h hfov vfov).determinant ≠ 0 ∧
    ∃ c, Camera.new p w h hfov vfov = Except.ok c := by
  have htanh : 0 < Real.tan (hfov / 2) :=
    Real.tan_pos_of_pos_of_lt_pi_div_two (by linarith) (by linarith)
  have htanv : 0 < Real.tan (vfov / 2) :=
    Real.tan_pos_of_pos_of_lt_pi_div_two (by linarith) (by linarith)
  have hcx : (0 : ℝ) < (w : ℝ) / 2 := by
    have : (0 : ℝ) < (w : ℝ) := by exact_mod_cast hw
    linarith
  have hcy : (0 : ℝ) < (h : ℝ) / 2 := by
    have : (0 : ℝ) < (h : ℝ) := by exact_mod_cast hh
    linarith
  have hfx : (0 : ℝ) < (w : ℝ) / 2 / Real.tan (hfov / 2) := div_pos hcx htanh
  have hfy : (0 : ℝ) < (h : ℝ) / 2 / Real.tan (vfov / 2) := div_pos hcy htanv
  have hdet : (cameraMatrix w h hfov vfov).determinant =
      ((w : ℝ) / 2 / Real.tan (hfov / 2)) * ((h : ℝ) / 2 / Real.tan (vfov / 2)) := by
    simp [cameraMatrix, Matrix3x3.determinant, Matrix3x3.subMatrix, Matrix2x2.determinant]
  have hne : (cameraMatrix w h hfov vfov).determinant ≠ 0 := by
    rw [hdet]; positivity
  refine ⟨hne, ?_⟩
  unfold Camera.new
  dsimp only
  rw [Matrix3x3.inverse_eq_ok_m3 _ hne]
  exact ⟨_, rfl⟩

/-- Concrete witness for C9: a 2x2 image with right-angle fields of view;
all hypotheses of `c9_camera_matrix_invertible` are discharged at this
input. -/
theorem c9_camera_matrix_invertible_witness :
    (cameraMatrix 2 2 (Real.pi / 2) (Real.pi / 2)).determinant ≠ 0 ∧
    ∃ c, Camera.new ⟨0, 0, 0⟩ 2 2 (Real.pi / 2) (Real.pi / 2) = Except.ok c :=
  c9_camera_matrix_invertible ⟨0, 0, 0⟩ 2 2 (Real.pi / 2) (Real.pi / 2)
    (by norm_num) (by norm_num) (by positivity)
    (by linarith [Real.pi_pos]) (by positivity) (by linarith [Real.pi_pos])

/-- Claim C1. The claim: `new_union` on two valid indices succeeds and
returns a handle.  On the code it cannot: `ShapeManager::new` seeds `map`
with only two kind lists, and the success path of `new_union` pushes onto
`map[2]`, an out-of-bounds panic.  Concretely: a fresh manager with two
spheres has valid shape indices 0 and 1, yet `new_union(0, 1)` terminates
fatally with the index-out-of-bounds panic instead of appending a union. -/
theorem c1_new_union_fatal_on_valid_indices :
    ∃ m, runOps ShapeManager.new
        [.mkSphere ⟨0, 0, 0⟩ 1 ⟨1, 1, 1⟩, .mkSphere ⟨2, 0, 0⟩ 1 ⟨1, 1, 1⟩] =
        Except.ok m ∧
      (m.get_shape 0).isSome = true ∧ (m.get_shape 1).isSome = true ∧
      m.new_union 0 1 = Except.error "index out of bounds" :=
  ⟨_, rfl, rfl, rfl, rfl⟩

/-- Claim C4. `new_union` with at least one unresolvable operand index
returns `None` and leaves the manager exactly as it was: no flag cleared,
no shape appended, no counter incremented. -/
theorem c4_new_union_invalid_leaves_state (m : ShapeManager) (left right : Nat)
    (h : m.get_shape left = none ∨ m.get_shape right = none) :
    m.new_union left right = Except.ok (m, none) := by
  unfold ShapeManager.new_union
  cases hl : (m.get_shape left).isSome with
  | false => cases hr : (m.get_shape right).isSome <;> rfl
  | true =>
    cases hr : (m.get_shape right).isSome with
    | false => rfl
    | true =>
      exfalso
      rcases h with h | h
      · rw [h] at hl; simp at hl
      · rw [h] at hr; simp at hr

/-- Concrete witness for C4: a fresh manager holds no shapes, so index 0
does not resolve and `new_union(0, 1)` returns the untouched manager and
`None`. -/
theorem c4_new_union_invalid_leaves_state_witness :
    ShapeManager.new.new_union 0 1 = Except.ok (ShapeManager.new, none) :=
  c4_new_union_invalid_leaves_state ShapeManager.new 0 1 (Or.inl rfl)

/-- Claim C6. `serialize_shapes` on an empty manager emits exactly one
default record: 12 four-byte words (48 bytes), the index field carrying
the `u32::MAX` sentinel, and in particular a non-empty buffer. -/
theorem c6_serialize_empty_sentinel (inv_c proj : Matrix4x4 ℚ) (screen : Nat × Nat) :
    ShapeManager.new.serialize_shapes inv_c proj screen =
      Except.ok ShapeData.default.toWords ∧
    byteLength ShapeData.default.toWords = 48 ∧
    ShapeData.default.index = u32MAX ∧ u32MAX = 2 ^ 32 - 1 ∧
    ShapeData.default.toWords ≠ [] := by
  refine ⟨rfl, rfl, rfl, rfl, by simp [ShapeData.toWords]⟩

/-- Claim C8. The claim: `buffer_size` returns the least multiple of the
positive alignment at or above the raw byte count.  The code routes the
computation through `f32`, whose cast rounds byte counts at and above
`2^24`: at `raw_size = 2^24 + 1 = 16777217` with the common 256-byte
alignment, `16777217 as f32` is the tie `16777216` (the even mantissa
wins), the quotient is exactly `65536`, and the helper returns
`16777216` — smaller than the byte count itself (the least multiple at or
above it is `16777472`).  Small and exactly-representable counts (the
remaining conjuncts) behave as the claim says. -/
theorem c8_buffer_size_f32_rounding_failure :
    ShapeManager.buffer_size 16777217 256 = 16777216 ∧
    ShapeManager.buffer_size 16777217 256 < 16777217 ∧
    ShapeManager.buffer_size 512 256 = 512 ∧
    ShapeManager.buffer_size 16777472 256 = 16777472 := by
  have hden : natLog2 1 = 0 := by decide
  have r256 : roundF32 256 = 256 := by
    have ha : natLog2 (Int.toNat 256) = 8 := by decide
    have t8 : Int.toNat 8 = 8 := by decide
    have t15 : Int.toNat 15 = 15 := by decide
    have hf : flog2 (256 : ℚ) = 8 := by norm_num [flog2, ha, hden, qpow2, t8]
    norm_num [roundF32, hf, qpow2, roundHalfEven, t15]
  have r17 : roundF32 16777217 = 16777216 := by
    have ha : natLog2 (Int.toNat 16777217) = 24 := by decide
    have t24 : Int.toNat 24 = 24 := by decide
    have t1 : Int.toNat 1 = 1 := by decide
    have hf : flog2 (16777217 : ℚ) = 24 := by norm_num [flog2, ha, hden, qpow2, t24]
    norm_num [roundF32, hf, qpow2, roundHalfEven, t1]
  have r65536 : roundF32 65536 = 65536 := by
    have ha : natLog2 (Int.toNat 65536) = 16 := by decide
    have t16 : Int.toNat 16 = 16 := by decide
    have t7 : Int.toNat 7 = 7 := by decide
    have hf : flog2 (65536 : ℚ) = 16 := by norm_num [flog2, ha, hden, qpow2, t16]
    norm_num [roundF32, hf, qpow2, roundHalfEven, t7]
  have r512 : roundF32 512 = 512 := by
    have ha : natLog2 (Int.toNat 512) = 9 := by decide
    have t9 : Int.toNat 9 = 9 := by decide
    have t14 : Int.toNat 14 = 14 := by decide
    have hf : flog2 (512 : ℚ) = 9 := by norm_num [flog2, ha, hden, qpow2, t9]
    norm_num [roundF32, hf, qpow2, roundHalfEven, t14]
  have r2 : roundF32 2 = 2 := by
    have ha : natLog2 (Int.toNat 2) = 1 := by decide
    have t1 : Int.toNat 1 = 1 := by decide
    have t22 : Int.toNat 22 = 22 := by decide
    have hf : flog2 (2 : ℚ) = 1 := by norm_num [flog2, ha, hden, qpow2, t1]
    norm_num [roundF32, hf, qpow2, roundHalfEven, t22]
  have r17472 : roundF32 16777472 = 16777472 := by
    have ha : natLog2 (Int.toNat 16777472) = 24 := by decide
    have t24 : Int.toNat 24 = 24 := by decide
    have t1 : Int.toNat 1 = 1 := by decide
    have hf : flog2 (16777472 : ℚ) = 24 := by norm_num [flog2, ha, hden, qpow2, t24]
    norm_num [roundF32, hf, qpow2, roundHalfEven, t1]
  have r65537 : roundF32 65537 = 65537 := by
    have ha : natLog2 (Int.toNat 65537) = 16 := by decide
    have t16 : Int.toNat 16 = 16 := by decide
    have t7 : Int.toNat 7 = 7 := by decide
    have hf : flog2 (65537 : ℚ) = 16 := by norm_num [flog2, ha, hden, qpow2, t16]
    norm_num [roundF32, hf, qpow2, roundHalfEven, t7]
  have hq1 : roundF32 (16777217 : ℚ) / roundF32 (256 : ℚ) = 65536 := by
    rw [r17, r256]; norm_num
  have hq2 : roundF32 (512 : ℚ) / roundF32 (256 : ℚ) = 2 := by
    rw [r512, r256]; norm_num
  have hq3 : roundF32 (16777472 : ℚ) / roundF32 (256 : ℚ) = 65537 := by
    rw [r17472, r256]; norm_num
  have t65536 : Int.toNat 65536 = 65536 := by decide
  have t2 : Int.toNat 2 = 2 := by decide
  have t65537 : Int.toNat 65537 = 65537 := by decide
  refine ⟨?_, ?_, ?_, ?_⟩
  · norm_num [ShapeManager.buffer_size, hq1, r65536, t65536, u32MAX, u32Size]
  · norm_num [ShapeManager.buffer_size, hq1, r65536, t65536, u32MAX, u32Size]
  · norm_num [ShapeManager.buffer_size, hq2, r2, t2, u32MAX, u32Size]
  · norm_num [ShapeManager.buffer_size, hq3, r65537, t65537, u32MAX, u32Size]

/-- Claim C10. Every shape created through `new_sphere` or `new_cube` starts
with its `Enabled` flag set: whenever the factory method returns a handle,
`get_flag(Enabled)` on it is `true`. -/
theorem c10_new_shapes_enabled :
    (∀ (m m' : ShapeManager) (pos color : Vec3 ℚ) (radius : ℚ) (s : Shape),
      m.new_sphere pos radius color = Except.ok (m', s) →
      s.get_flag ShapeFlag.enabled = true) ∧
    (∀ (m m' : ShapeManager) (pos bounds color : Vec3 ℚ) (s : Shape),
      m.new_cube pos bounds color = Except.ok (m', s) →
      s.get_flag ShapeFlag.enabled = true) := by
  constructor
  · intro m m' pos color radius s h
    unfold ShapeManager.new_sphere vecGet vecSet at h
    simp only [bind, Except.bind] at h
    split at h
    · exact Except.noConfusion h
    · split at h
      · exact Except.noConfusion h
      · split at h
        · exact Except.noConfusion h
        · split at h
          · exact Except.noConfusion h
          · simp only [pure, Except.pure, Except.ok.injEq, Prod.mk.injEq] at h
            rw [← h.2]
            rfl
  · intro m m' pos bounds color s h
    unfold ShapeManager.new_cube vecGet vecSet at h
    simp only [bind, Except.bind] at h
    split at h
    · exact Except.noConfusion h
    · split at h
      · exact Except.noConfusion h
      · split at h
        · exact Except.noConfusion h
        · split at h
          · exact Except.noConfusion h
          · simp only [pure, Except.pure, Except.ok.injEq, Prod.mk.injEq] at h
            rw [← h.2]
            rfl

/-- Concrete witness for C10: the sphere and the cube created on a fresh
manager both come back with the `Enabled` flag set. -/
theorem c10_new_shapes_enabled_witness :
    (Shape.sphere ⟨0, 0, 0⟩ 1 ⟨1, 1, 1⟩ 0 Flags.mkEnabled).get_flag
      ShapeFlag.enabled = true ∧
    (Shape.cube ⟨0, 0, 0⟩ ⟨1, 1, 1⟩ ⟨0, 0, 0, 1⟩ ⟨0, 0, 0⟩ 0 Flags.mkEnabled).get_flag
      ShapeFlag.enabled = true :=
  ⟨c10_new_shapes_enabled.1 ShapeManager.new _ ⟨0, 0, 0⟩ ⟨1, 1, 1⟩ 1 _ rfl,
   c10_new_shapes_enabled.2 ShapeManager.new _ ⟨0, 0, 0⟩ ⟨1, 1, 1⟩ ⟨0, 0, 0⟩ _ rfl⟩

theorem getElem_zero_eq_headD {β : Type} (l : List β) (d : β) (h : 0 < l.length) :
    l[0] = l.headD d := by
  cases l with
  | nil => simp at h
  | cons a t => rfl

theorem getElem_one_eq_getD {β : Type} (l : List β) (d : β) (h : 1 < l.length) :
    l[1] = l.getD 1 d := by
  cases l with
  | nil => simp at h
  | cons a t =>
    cases t with
    | nil => simp at h
    | cons b t => rfl

theorem headD_set_one {β : Type} (l : List β) (v d : β) :
    (l.set 1 v).headD d = l.headD d := by
  cases l with
  | nil => rfl
  | cons a t => cases t <;> rfl

theorem headD_set_zero {β : Type} (l : List β) (v d : β) (h : 0 < l.length) :
    (l.set 0 v).headD d = v := by
  cases l with
  | nil => simp at h
  | cons a t => rfl

/-- Evaluation of `new_sphere` on a manager whose bookkeeping vectors have
their construction-time lengths. -/
theorem ShapeManager.new_sphere_step (m : ShapeManager) (p c : Vec3 ℚ) (r : ℚ)
    (h1 : m.map.length = 2) (h2 : m.indices.length = 1000) :
    m.new_sphere p r c = Except.ok
      (⟨m.shapes ++ [.sphere p r c (m.indices.headD 0) Flags.mkEnabled],
        m.indices.set 0 ((m.indices.headD 0 + 1) % u32Size),
        m.map.set 0 (m.map.headD [] ++ [m.shapes.length % u32Size])⟩,
       .sphere p r c (m.indices.headD 0) Flags.mkEnabled) := by
  have h0m : 0 < m.map.length := by omega
  have h0i : 0 < m.indices.length := by omega
  unfold ShapeManager.new_sphere vecGet vecSet
  simp only [bind, Except.bind, dif_pos h0m, dif_pos h0i, if_pos h0m, if_pos h0i]
  rw [getElem_zero_eq_headD m.map [] h0m, getElem_zero_eq_headD m.indices 0 h0i]
  rfl

/-- Evaluation of `new_cube` on a manager whose bookkeeping vectors have
their construction-time lengths. -/
theorem ShapeManager.new_cube_step (m : ShapeManager) (p b c : Vec3 ℚ)
    (h1 : m.map.length = 2) (h2 : m.indices.length = 1000) :
    m.new_cube p b c = Except.ok
      (⟨m.shapes ++ [.cube p b ⟨0, 0, 0, 1⟩ c (m.indices.getD 1 0) Flags.mkEnabled],
        m.indices.set 1 ((m.indices.getD 1 0 + 1) % u32Size),
        m.map.set 1 (m.map.getD 1 [] ++ [m.shapes.length % u32Size])⟩,
       .cube p b ⟨0, 0, 0, 1⟩ c (m.indices.getD 1 0) Flags.mkEnabled) := by
  have h1m : 1 < m.map.length := by omega
  have h1i : 1 < m.indices.length := by omega
  unfold ShapeManager.new_cube vecGet vecSet
  simp only [bind, Except.bind, dif_pos h1m, dif_pos h1i, if_pos h1m, if_pos h1i]
  rw [getElem_one_eq_getD m.map [] h1m, getElem_one_eq_getD m.indices 0 h1i]
  rfl

theorem sphereIndices_append (l₁ l₂ : List Shape) :
    sphereIndices (l₁ ++ l₂) = sphereIndices l₁ ++ sphereIndices l₂ := by
  unfold sphereIndices
  exact List.filterMap_append l₁ l₂ _

/-- Running any factory-call sequence from a manager with the
construction-time vector lengths whose sphere counter holds `k mod 2^32`
(after `k` logical sphere creations): the run succeeds, the lengths are
preserved, the counter advances by the number of sphere calls modulo
`2^32`, and the new sphere indices are the consecutive logical positions
reduced modulo `2^32`. -/
theorem runOps_sphere_indices (ops : List SceneOp) :
    ∀ (m : ShapeManager) (k : ℕ), m.map.length = 2 → m.indices.length = 1000 →
    m.indices.headD 0 = k % u32Size →
    ∃ m', runOps m ops = Except.ok m' ∧
      m'.map.length = 2 ∧ m'.indices.length = 1000 ∧
      m'.indices.headD 0 = (k + countSpheres ops) % u32Size ∧
      sphereIndices m'.shapes =
        sphereIndices m.shapes ++
          (List.range' k (countSpheres ops)).map (fun i => i % u32Size) := by
  induction ops with
  | nil =>
    intro m k h1 h2 hk
    exact ⟨m, rfl, h1, h2, by simpa [countSpheres] using hk,
      by simp [countSpheres, List.range']⟩
  | cons op rest ih =>
    intro m k h1 h2 hk
    cases op with
    | mkSphere p r c =>
      have hstep := ShapeManager.new_sphere_step m p c r h1 h2
      set m₁ : ShapeManager :=
        ⟨m.shapes ++ [.sphere p r c (m.indices.headD 0) Flags.mkEnabled],
         m.indices.set 0 ((m.indices.headD 0 + 1) % u32Size),
         m.map.set 0 (m.map.headD [] ++ [m.shapes.length % u32Size])⟩ with hm₁
      have h1' : m₁.map.length = 2 := by simp [hm₁, h1]
      have h2' : m₁.indices.length = 1000 := by simp [hm₁, h2]
      have hk' : m₁.indices.headD 0 = (k + 1) % u32Size := by
        show (m.indices.set 0 ((m.indices.headD 0 + 1) % u32Size)).headD 0 =
          (k + 1) % u32Size
        rw [headD_set_zero m.indices _ 0 (by omega), hk]
        unfold u32Size
        omega
      obtain ⟨m', hrun, hl1, hl2, hcnt, hsph⟩ := ih m₁ (k + 1) h1' h2' hk'
      refine ⟨m', ?_, hl1, hl2, ?_, ?_⟩
      · show (do runOps (← runOp m (.mkSphere p r c)) rest) = Except.ok m'
        simp only [runOp, hstep, Except.map, bind, Except.bind]
        exact hrun
      · rw [hcnt]
        show (k + 1 + countSpheres rest) % u32Size =
          (k + (countSpheres rest + 1)) % u32Size
        congr 1
        omega
      · rw [hsph]
        show sphereIndices (m.shapes ++
              [Shape.sphere p r c (m.indices.headD 0) Flags.mkEnabled]) ++
            (List.range' (k + 1) (countSpheres rest)).map (fun i => i % u32Size) =
          sphereIndices m.shapes ++
            (List.range' k (countSpheres rest + 1)).map (fun i => i % u32Size)
        rw [hk, sphereIndices_append, List.append_assoc]
        rfl
    | mkCube p b c =>
      have hstep := ShapeManager.new_cube_step m p b c h1 h2
      set m₁ : ShapeManager :=
        ⟨m.shapes ++ [.cube p b ⟨0, 0, 0, 1⟩ c (m.indices.getD 1 0) Flags.mkEnabled],
         m.indices.set 1 ((m.indices.getD 1 0 + 1) % u32Size),
         m.map.set 1 (m.map.getD 1 [] ++ [m.shapes.length % u32Size])⟩ with hm₁
      have h1' : m₁.map.length = 2 := by simp [hm₁, h1]
      have h2' : m₁.indices.length = 1000 := by simp [hm₁, h2]
      have hk' : m₁.indices.headD 0 = k % u32Size := by
        show (m.indices.set 1 ((m.indices.getD 1 0 + 1) % u32Size)).headD 0 =
          k % u32Size
        rw [headD_set_one]
        exact hk
      obtain ⟨m', hrun, hl1, hl2, hcnt, hsph⟩ := ih m₁ k h1' h2' hk'
      refine ⟨m', ?_, hl1, hl2, ?_, ?_⟩
      · show (do runOps (← runOp m (.mkCube p b c)) rest) = Except.ok m'
        simp only [runOp, hstep, Except.map, bind, Except.bind]
        exact hrun
      · rw [hcnt]
        rfl
      · rw [hsph]
        show sphereIndices (m.shapes ++
              [Shape.cube p b ⟨0, 0, 0, 1⟩ c (m.indices.getD 1 0) Flags.mkEnabled]) ++
            (List.range' k (countSpheres rest)).map (fun i => i % u32Size) =
          sphereIndices m.shapes ++
            (List.range' k (countSpheres rest)).map (fun i => i % u32Size)
        rw [sphereIndices_append]
        show sphereIndices m.shapes ++ [] ++
            (List.range' k (countSpheres rest)).map (fun i => i % u32Size) =
          sphereIndices m.shapes ++
            (List.range' k (countSpheres rest)).map (fun i => i % u32Size)
        rw [List.append_nil]

/-- The number of sphere calls in a constant all-sphere sequence. -/
theorem countSpheres_replicate (n : ℕ) (p : Vec3 ℚ) (r : ℚ) (c : Vec3 ℚ) :
    countSpheres (List.replicate n (.mkSphere p r c)) = n := by
  induction n with
  | zero => rfl
  | succ k ih => simp [List.replicate_succ, countSpheres, ih]

/-- Claim C7 (amended). For any sequence of `new_sphere` / `new_cube`
calls on a fresh manager, the sphere kind-local indices in creation order
are `0, 1, 2, ...` reduced modulo `2^32` — the counter is a `u32` that
wraps — so the i-th sphere created gets index `i mod 2^32`, however many
cubes are interleaved; in particular it gets exactly `i` whenever at most
`2^32` spheres are created. -/
theorem c7_sphere_indices_sequential (ops : List SceneOp) (m : ShapeManager)
    (h : runOps ShapeManager.new ops = Except.ok m) :
    sphereIndices m.shapes =
      (List.range (countSpheres ops)).map (fun i => i % u32Size) ∧
    (countSpheres ops ≤ u32Size →
      sphereIndices m.shapes = List.range (countSpheres ops)) := by
  obtain ⟨m', hrun, _, _, _, hsph⟩ :=
    runOps_sphere_indices ops ShapeManager.new 0 rfl (by simp [ShapeManager.new]) rfl
  rw [h] at hrun
  have hm : m = m' := Except.ok.inj hrun
  subst hm
  have hmap : sphereIndices m.shapes =
      (List.range (countSpheres ops)).map (fun i => i % u32Size) := by
    rw [hsph, List.range_eq_range']
    rfl
  refine ⟨hmap, fun hle => ?_⟩
  rw [hmap]
  have hid : ∀ i ∈ List.range (countSpheres ops), i % u32Size = i := by
    intro i hi
    exact Nat.mod_eq_of_lt (lt_of_lt_of_le (List.mem_range.mp hi) hle)
  rw [List.map_congr_left hid, List.map_id']

/-- Claim C7 counterexample: the claim as stated — the i-th sphere gets
index i for every sequence — fails on the code once the `u32` counter
wraps: after `2^32 + 1` consecutive `new_sphere` calls the sphere at
position `2^32` carries kind-local index 0, not `2^32`. -/
theorem c7_sphere_indices_wrap_counterexample :
    ∃ m, runOps ShapeManager.new
        (List.replicate (u32Size + 1) (.mkSphere ⟨0, 0, 0⟩ 1 ⟨1, 1, 1⟩)) =
        Except.ok m ∧
      sphereIndices m.shapes ≠
        List.range (countSpheres
          (List.replicate (u32Size + 1) (.mkSphere ⟨0, 0, 0⟩ 1 ⟨1, 1, 1⟩))) := by
  obtain ⟨m', hrun, _, _, _, hsph⟩ :=
    runOps_sphere_indices
      (List.replicate (u32Size + 1) (.mkSphere ⟨0, 0, 0⟩ 1 ⟨1, 1, 1⟩))
      ShapeManager.new 0 rfl (by simp [ShapeManager.new]) rfl
  refine ⟨m', hrun, ?_⟩
  rw [hsph, countSpheres_replicate]
  have hnil : sphereIndices ShapeManager.new.shapes = ([] : List ℕ) := rfl
  rw [hnil, List.nil_append, ← List.range_eq_range']
  intro heq
  have hlt : u32Size < u32Size + 1 := Nat.lt_succ_self _
  have h0 := congrArg (fun l => l[u32Size]?) heq
  simp only [List.getElem?_map, List.getElem?_range hlt, Option.map_some'] at h0
  rw [Nat.mod_self] at h0
  have h1 : (0 : ℕ) = u32Size := Option.some.inj h0
  exact absurd h1 (by decide)

/-- Concrete witness for C7: in the demo scene (cube, sphere, sphere,
cube) the two spheres receive kind-local indices 0 and 1, both below the
wrap threshold. -/
theorem c7_sphere_indices_sequential_witness :
    ∃ m', runOps ShapeManager.new demoOps = Except.ok m' ∧
      sphereIndices m'.shapes =
        (List.range (countSpheres demoOps)).map (fun i => i % u32Size) ∧
      sphereIndices m'.shapes = List.range (countSpheres demoOps) ∧
      List.range (countSpheres demoOps) = [0, 1] :=
  ⟨_, rfl, (c7_sphere_indices_sequential demoOps _ rfl).1,
   (c7_sphere_indices_sequential demoOps _ rfl).2 (by decide), rfl⟩

